

import Mathlib

/-!
Verification of the IncPy automatic memoization engine
(`Python/memoize.c`, `Python/memoize_fmi.c`).

This file gives a shallow embedding of the engine's core decision
procedures and proves properties about them:

* `obj_equals` — the error-absorbing equality test (memoize.c:703-769);
* the file-open mode classifier and `pg_FILE_OPEN_event`
  (memoize.c:2992-3065);
* the mutation-blame walk `pg_about_to_MUTATE_event`
  (memoize.c:2824-2886) and `mark_impure` (memoize.c:1085-1115);
* the memo-table lookup loop of `pg_enter_frame`
  (memoize.c:1717-1959) with `are_code_dependencies_satisfied`
  (memoize.c:1488-1532);
* the `FuncMemoInfo` lifecycle (memoize_fmi.c) including
  `clear_cache_and_mark_pure` and the on-disk cache operations;
* the call-exit store/discard decision of `pg_exit_frame`
  (memoize.c:2174-2572);
* the `MEMOIZE_PUBLIC_START` / `MEMOIZE_PUBLIC_END` tracking switch
  (memoize.c:111-126).

Python object values are abstracted as `Nat` (two values are `obj_equals`
equal iff the naturals coincide), code fingerprints as `Nat` (two
fingerprints are `code_dependency_EQ` iff the naturals coincide), and
`PyDict` / the on-disk key space as association lists over `String` keys.
-/

namespace IncPy

/-! ## Association-list dictionaries (`PyDict`, on-disk key spaces) -/

/-- Lookup in an association list; models `PyDict_GetItem`. -/
def assocLookup {α : Type} : List (String × α) → String → Option α
  | [], _ => none
  | (k', v) :: rest, k => if k' == k then some v else assocLookup rest k

/-- Remove a key; models deleting a dictionary entry / unlinking a cache
file.  Dictionaries have unique keys, so removal filters all bindings. -/
def assocRemove {α : Type} (m : List (String × α)) (k : String) : List (String × α) :=
  m.filter (fun p => !(p.1 == k))

/-- Insert-or-replace; models `PyDict_SetItem` / overwriting a cache file. -/
def assocUpdate {α : Type} (m : List (String × α)) (k : String) (v : α) : List (String × α) :=
  assocRemove m k ++ [(k, v)]

/-- Add an element to a set; models `LAZY_INIT_SET_ADD` (`PySet_Add`). -/
def setAdd (s : List String) (x : String) : List String :=
  if s.contains x then s else s ++ [x]

/-! ## `obj_equals` (memoize.c:703-769)

`obj_equals(obj1, obj2)` first runs `PyObject_RichCompareBool(obj1, obj2,
Py_EQ)`.  On error it consults the operand type names: for
`numpy.ndarray` / `matrix` / `MaskedArray` it clears the error and
re-compares via `numpy.allclose`, itself falling back to `0` (with the
error cleared) when `allclose` fails; for every other type it clears the
error and returns `0`.  The embedding abstracts the outcome of each
Python-level call as `PyResult Bool`. -/

/-- Outcome of a call into the Python runtime: a value, or a raised
exception (`PyErr_Occurred`). -/
inductive PyResult (α : Type) where
  | ok (val : α)
  | err
deriving DecidableEq, Repr

/-- The type names special-cased in `obj_equals` (memoize.c:724-729). -/
def isNumpyTypename (t : String) : Bool :=
  t == "numpy.ndarray" || t == "matrix" || t == "MaskedArray"

/-- Inputs that determine a run of `obj_equals`: the rich-compare
outcome, the two operand type names, and the outcome `numpy.allclose`
would produce if consulted. -/
structure EqInput where
  richCmpEq : PyResult Bool
  typename1 : String
  typename2 : String
  allcloseResult : PyResult Bool
deriving DecidableEq, Repr

/-- What `obj_equals` hands back to its caller: the comparison verdict
and whether a Python error is still pending on return. -/
structure EqOutcome where
  result : Bool
  errorPending : Bool
deriving DecidableEq, Repr

/-- Shallow embedding of `obj_equals` (memoize.c:703-769). -/
def obj_equals (inp : EqInput) : EqOutcome :=
  match inp.richCmpEq with
  | .ok b => { result := b, errorPending := false }
  | .err =>
    if isNumpyTypename inp.typename1 || isNumpyTypename inp.typename2 then
      match inp.allcloseResult with
      | .ok b => { result := b, errorPending := false }
      | .err => { result := false, errorPending := false }
    else
      { result := false, errorPending := false }

/-! ## Frames and impurity marking (memoize.c:1085-1123)

A `Frame` is the engine's view of one `PyFrameObject` on the stack: the
presence of a `func_memo_info` record (a tracked invocation), the
impurity flag with its first-recorded reason, the call-clock start time
`start_func_call_time`, and the per-invocation file sets. -/

structure Frame where
  hasFmi : Bool
  isImpure : Bool
  impureReason : Option String
  startFuncCallTime : Nat
  filesOpenedW : List String
  filesWritten : List String
  filesRead : List String
deriving DecidableEq, Repr

/-- Shallow embedding of `mark_impure(f, why)` (memoize.c:1085-1115):
no-op for untracked frames, no-op (keeping the first reason) for frames
already impure, otherwise sets the flag and records the reason. -/
def mark_impure (why : String) (f : Frame) : Frame :=
  if !f.hasFmi then f
  else if f.isImpure then f
  else { f with isImpure := true, impureReason := some why }

/-- Shallow embedding of `mark_entire_stack_impure(why)`
(memoize.c:1117-1123): walk every frame and `mark_impure` it. -/
def mark_entire_stack_impure (why : String) (stack : List Frame) : List Frame :=
  stack.map (mark_impure why)

/-! ## File-open events (memoize.c:2992-3065, 3104-3120)

`pg_FILE_OPEN_event` scans the C mode string with a small state machine
computing `is_pure_write` / `is_mixed_write`, then either marks the whole
stack impure (mixed write), records the file in the opened-for-write and
written sets of every tracked frame (pure write), or falls through to the
read-dependency path. -/

/-- One step of the mode-scanning loop (memoize.c:3011-3030). -/
def fileModeStep (acc : Bool × Bool) (c : Char) : Bool × Bool :=
  if c == 'w' then (if acc.2 then acc else (true, acc.2))
  else if c == 'r' then (false, acc.2)
  else if c == '+' then (false, true)
  else if c == 'a' then (false, true)
  else acc

/-- Scan a whole mode string; returns `(is_pure_write, is_mixed_write)`. -/
def parseFileMode (mode : List Char) : Bool × Bool :=
  mode.foldl fileModeStep (false, false)

/-- Character membership in a mode string. -/
def hasChar : List Char → Char → Bool
  | [], _ => false
  | c :: rest, target => c == target || hasChar rest target

/-- Shallow embedding of `private_FILE_READ_event` (memoize.c:3104-3120). -/
def private_FILE_READ_event (stack : List Frame) (fname : String) : List Frame :=
  if fname == "<stdin>" then mark_entire_stack_impure "read from stdin" stack
  else
    stack.map (fun f =>
      if f.hasFmi then { f with filesRead := setAdd f.filesRead fname } else f)

/-- Per-frame update of the pure-write branch (memoize.c:3045-3052). -/
def pureWriteUpdate (fname : String) (f : Frame) : Frame :=
  if f.hasFmi then
    { f with filesOpenedW := setAdd f.filesOpenedW fname,
             filesWritten := setAdd f.filesWritten fname }
  else f

/-- Shallow embedding of the body of `pg_FILE_OPEN_event`
(memoize.c:2992-3065). -/
def pg_FILE_OPEN_event (stack : List Frame) (fname : String) (mode : List Char) :
    List Frame :=
  let pm := parseFileMode mode
  if pm.2 then mark_entire_stack_impure "opened file in a/+ mode" stack
  else if pm.1 then stack.map (pureWriteUpdate fname)
  else private_FILE_READ_event stack fname

/-- The claim's "pure-write mode": mode string containing `w` and none of
`r`, `+`, `a`. -/
def pureWriteMode (mode : List Char) : Bool :=
  hasChar mode 'w' && !hasChar mode 'r' && !hasChar mode '+' && !hasChar mode 'a'

/-! ## Mutation events (memoize.c:2824-2886)

`pg_about_to_MUTATE_event(object)` receives the value about to be
mutated.  The inputs that determine its behaviour: whether the top frame
is ignored, the value's global container tag (a tuple of path components
whose first element is the sentinel string "IGNORE" for
ignored/library reachability), the value's recorded
`arg_reachable_func_start_time` (0 when not argument-reachable), and the
stack. -/

structure MutInput where
  topIgnored : Bool
  globalContainer : Option (String × List String)
  argReachableTime : Nat
  stack : List Frame
deriving Repr

/-- Shallow embedding of `pg_about_to_MUTATE_event` (memoize.c:2824-2886):
if the top frame is ignored do nothing; if the value has a global
container whose path is not the "IGNORE" sentinel, mark the whole
stack impure; otherwise mark impure exactly the tracked frames whose
`start_func_call_time` is at or after the value's recorded
arg-reachable time. -/
def pg_about_to_MUTATE_event (inp : MutInput) : List Frame :=
  if inp.topIgnored then inp.stack
  else
    match inp.globalContainer with
    | some gc =>
      if gc.1 == "IGNORE" then inp.stack
      else mark_entire_stack_impure "mutate global var" inp.stack
    | none =>
      if 0 < inp.argReachableTime then
        inp.stack.map (fun f =>
          if f.hasFmi && decide (inp.argReachableTime ≤ f.startFuncCallTime)
          then mark_impure "mutates its argument" f else f)
      else inp.stack

/-- The blame rule the claim describes, per frame: a frame is newly
marked when the value is non-ignored globally reachable (then every
tracked frame is blamed), or else when it is argument-reachable and the
frame is tracked and started at or after the value's recorded
arg-reachable-since clock value. -/
def blamedByMutation (inp : MutInput) (f : Frame) : Bool :=
  match inp.globalContainer with
  | some gc => f.hasFmi && !(gc.1 == "IGNORE")
  | none =>
    f.hasFmi && decide (0 < inp.argReachableTime) &&
      decide (inp.argReachableTime ≤ f.startFuncCallTime)

/-! ## The process-wide tracking switch (memoize.c:111-126, 2953-2986)

`MEMOIZE_PUBLIC_START()` returns early when `pg_activated` is 0 and
otherwise clears it; `MEMOIZE_PUBLIC_END()` sets it back to 1.
`pg_about_to_CALL_C_METHOD_WITH_SELF_event` deliberately does NOT use
the macro pair (memoize.c:2954-2957): it only tests the flag, so that
its synthesized `pg_about_to_MUTATE_event(self)` can fire. -/

/-- `MEMOIZE_PUBLIC_START()`: `none` models the early return taken when
tracking is off; `some b` is the flag value the body then observes. -/
def memoizePublicStart (activated : Bool) : Option Bool :=
  if activated then some false else none

/-- `MEMOIZE_PUBLIC_END()`: unconditionally re-enables tracking. -/
def memoizePublicEnd (_flagDuringBody : Bool) : Bool :=
  true

/-- State threaded through the event handlers: the tracking flag plus
the mutation-relevant world (which contains the stack). -/
structure TrackState where
  pgActivated : Bool
  mutInput : MutInput
deriving Repr

/-- `pg_about_to_MUTATE_event` as a public operation wrapped in the
macro pair.  Returns the new state and, when the body ran, the flag
value it observed. -/
def pg_about_to_MUTATE_op (st : TrackState) : TrackState × Option Bool :=
  match memoizePublicStart st.pgActivated with
  | none => (st, none)
  | some flagInBody =>
    let newStack := pg_about_to_MUTATE_event st.mutInput
    ({ pgActivated := memoizePublicEnd flagInBody,
       mutInput := { st.mutInput with stack := newStack } }, some flagInBody)

/-- `definitely_impure_funcs` (memoize.c:2923-2941). -/
def definitelyImpureFuncNames : List String :=
  ["input", "raw_input"]

/-- `self_mutator_c_methods` (memoize.c:2891-2918). -/
def selfMutatorCMethodNames : List String :=
  ["append", "insert", "extend", "pop", "remove", "reverse", "sort",
   "popitem", "update", "clear", "intersection_update", "difference_update",
   "symmetric_difference_update", "add", "discard", "resize",
   "appendleft", "extendleft", "popleft", "rotate", "setdefault"]

/-- Shallow embedding of `pg_about_to_CALL_C_METHOD_WITH_SELF_event`
(memoize.c:2953-2986).  The second component reports whether a nested
`pg_about_to_MUTATE_event` body was delivered during the handler. -/
def pg_about_to_CALL_C_METHOD_WITH_SELF_op (st : TrackState)
    (funcName : String) (selfPresent : Bool) : TrackState × Bool :=
  if st.pgActivated = false then (st, false)
  else if definitelyImpureFuncNames.contains funcName then
    ({ st with
       mutInput := { st.mutInput with
         stack := mark_entire_stack_impure
           ("called a definitely-impure function " ++ funcName)
           st.mutInput.stack } }, false)
  else if selfPresent = false then (st, false)
  else if selfMutatorCMethodNames.contains funcName then
    let res := pg_about_to_MUTATE_op st
    (res.1, res.2.isSome)
  else (st, false)

/-! ## Cache entries and dependency verification
(memoize.c:1488-1532, 1717-1959; memoize_fmi.c:255-289)

A `CacheEntry` is one element of the per-argument-hash entry list: a
code-dependency snapshot (canonical name → fingerprint), a
global-variable-value snapshot, file read/write mtime snapshots, the
return value and the recorded runtime.  `VerifyState` is the current
state the snapshots are verified against: the live
`func_name_to_code_dependency` registry, the current values of global
paths, and the current file modification times (absent key = file not
found). -/

structure CacheEntry where
  codeDependencies : List (String × Nat)
  globalVarsRead : List (String × Nat)
  filesRead : List (String × Int)
  filesWritten : List (String × Int)
  retval : Nat
  runtimeMs : Int
deriving DecidableEq, Repr

structure VerifyState where
  registry : List (String × Nat)
  globals : List (String × Nat)
  fileMtimes : List (String × Int)
deriving Repr

/-- `CODE_DEPENDENCY_EQ`: two fingerprints are equal iff structurally
equal (abstracted as `Nat` identity). -/
def code_dependency_EQ (a b : Nat) : Bool :=
  a == b

/-- Shallow embedding of `are_code_dependencies_satisfied`
(memoize.c:1488-1532): every recorded dependency must still be present
in `func_name_to_code_dependency` with an equal fingerprint; a missing
callable is always a hard break. -/
def are_code_dependencies_satisfied (registry : List (String × Nat))
    (deps : List (String × Nat)) : Bool :=
  deps.all (fun p =>
    match assocLookup registry p.1 with
    | none => false
    | some cur => code_dependency_EQ cur p.2)

/-- The global-variable-value re-verification of the lookup loop
(memoize.c:1779-1813): every recorded global must still resolve and
compare `obj_equals`-equal to its recorded value. -/
def checkEntryGlobals (st : VerifyState) (e : CacheEntry) : Bool :=
  e.globalVarsRead.all (fun p =>
    match assocLookup st.globals p.1 with
    | none => false
    | some cur => p.2 == cur)

/-- Modification-time verification for one snapshot
(memoize.c:1821-1898): a missing file or a changed mtime is a break. -/
def checkFileDeps (st : VerifyState) (files : List (String × Int)) : Bool :=
  files.all (fun p =>
    match assocLookup st.fileMtimes p.1 with
    | none => false
    | some mtime => mtime == p.2)

/-- Both file snapshots of an entry (files read, then files written). -/
def checkEntryFiles (st : VerifyState) (e : CacheEntry) : Bool :=
  checkFileDeps st e.filesRead && checkFileDeps st e.filesWritten

/-! ## `FuncMemoInfo` (memoize_fmi.c)

The on-disk namespace contents (`incpy-cache/<hash>.cache/`, one pickle
file per argument hash) are modelled as the `cache` field. -/

structure FuncMemoInfo where
  canonicalName : String
  codeDependencies : List (String × Nat)
  isImpure : Bool
  impureStatusMsg : Option String
  likelyNothingToMemoize : Bool
  allCodeDepsSAT : Bool
  numFastCallsWithNoMemoizedVals : Nat
  onDiskCacheEmpty : Bool
  cache : List (String × List CacheEntry)
deriving DecidableEq, Repr

/-- Shallow embedding of `NEW_func_memo_info` (memoize_fmi.c:27-68):
all fields zeroed, then a self code dependency is inserted, taken from
`func_name_to_code_dependency` (adding a fresh fingerprint of the code
object first, via `add_new_code_dep`, when the name is absent; the code
object is assumed not ignored, as the C code asserts success).  Returns
the new record and the possibly-extended registry. -/
def NEW_func_memo_info (registry : List (String × Nat)) (name : String)
    (fpFromCod : Nat) : FuncMemoInfo × List (String × Nat) :=
  match assocLookup registry name with
  | some dep =>
    ({ canonicalName := name, codeDependencies := [(name, dep)],
       isImpure := false, impureStatusMsg := none,
       likelyNothingToMemoize := false, allCodeDepsSAT := false,
       numFastCallsWithNoMemoizedVals := 0, onDiskCacheEmpty := false,
       cache := [] }, registry)
  | none =>
    ({ canonicalName := name, codeDependencies := [(name, fpFromCod)],
       isImpure := false, impureStatusMsg := none,
       likelyNothingToMemoize := false, allCodeDepsSAT := false,
       numFastCallsWithNoMemoizedVals := 0, onDiskCacheEmpty := false,
       cache := [] }, assocUpdate registry name fpFromCod)

/-- Shallow embedding of `clear_cache_and_mark_pure`
(memoize_fmi.c:79-125): erase the whole cache sub-directory, set the
empty flag, rebuild the code-dependency map as the single self entry
taken fresh from the registry (asserted present; its absence is modelled
as an empty map and excluded by hypothesis where used), and reset the
impure / likely-nothing / SAT / fast-call fields.  The
`impure_status_msg` is NOT cleared by the C code. -/
def clear_cache_and_mark_pure (registry : List (String × Nat))
    (fmi : FuncMemoInfo) : FuncMemoInfo :=
  { fmi with
    cache := [],
    onDiskCacheEmpty := true,
    codeDependencies :=
      match assocLookup registry fmi.canonicalName with
      | some dep => [(fmi.canonicalName, dep)]
      | none => [],
    isImpure := false,
    likelyNothingToMemoize := false,
    allCodeDepsSAT := false,
    numFastCallsWithNoMemoizedVals := 0 }

/-- The serialized dependency pickle
(`incpy-cache/<hash>.dependencies.pickle`): canonical name plus the
code-dependency map, when present (memoize_fmi.c:208-223). -/
structure SerializedFMI where
  canonicalName : String
  codeDependencies : Option (List (String × Nat))
deriving DecidableEq, Repr

/-- Shallow embedding of `serialize_func_memo_info_dependencies`
(memoize_fmi.c:208-223); the map always exists in a live record. -/
def serialize_func_memo_info_dependencies (fmi : FuncMemoInfo) : SerializedFMI :=
  { canonicalName := fmi.canonicalName,
    codeDependencies := some fmi.codeDependencies }

/-- Shallow embedding of `deserialize_func_memo_info`
(memoize_fmi.c:229-252): build a fresh record via `NEW_func_memo_info`,
then replace its code-dependency map with the pickled one when present. -/
def deserialize_func_memo_info (registry : List (String × Nat))
    (ser : SerializedFMI) (name : String) (fpFromCod : Nat) :
    FuncMemoInfo × List (String × Nat) :=
  let base := NEW_func_memo_info registry name fpFromCod
  match ser.codeDependencies with
  | some deps => ({ base.1 with codeDependencies := deps }, base.2)
  | none => base

/-- The invariant the claim describes: the map has an entry under the
record's own canonical name. -/
def hasSelfCodeDependency (fmi : FuncMemoInfo) : Bool :=
  (assocLookup fmi.codeDependencies fmi.canonicalName).isSome

/-! ## On-disk cache store operations (memoize_fmi.c:292-405) -/

/-- `on_disk_cache_GET` (memoize_fmi.c:294-332): `NULL` when the empty
flag is set or the key's pickle file is absent. -/
def on_disk_cache_GET (fmi : FuncMemoInfo) (hashKey : String) :
    Option (List CacheEntry) :=
  if fmi.onDiskCacheEmpty then none else assocLookup fmi.cache hashKey

/-- Effect of a successful `on_disk_cache_PUT` (memoize_fmi.c:340-379)
on the namespace contents: the key's file now holds `contents` and the
empty flag is cleared. -/
def on_disk_cache_PUT_model (fmi : FuncMemoInfo) (hashKey : String)
    (contents : List CacheEntry) : FuncMemoInfo :=
  { fmi with cache := assocUpdate fmi.cache hashKey contents,
             onDiskCacheEmpty := false }

/-- Effect of `on_disk_cache_DEL` (memoize_fmi.c:381-405): unlink the
key's pickle file; the empty flag is set exactly when the directory is
empty afterwards. -/
def on_disk_cache_DEL_model (fmi : FuncMemoInfo) (hashKey : String) :
    FuncMemoInfo :=
  let newCache := assocRemove fmi.cache hashKey
  { fmi with cache := newCache, onDiskCacheEmpty := newCache.isEmpty }

/-- The sequence of filesystem operations a call to `on_disk_cache_PUT`
performs (memoize_fmi.c:340-379): conditionally create the two parent
directories, then open the FINAL pickle path for writing and
`cPickle.dump` into it.  The operation vocabulary includes renaming so
that its absence from the trace is expressible. -/
inductive FsOp where
  | mkdirOp (path : String)
  | openForWrite (path : String)
  | pickleDump (path : String)
  | renameFile (src : String) (dst : String)
deriving DecidableEq, Repr

/-- `<subdir>/<hash of key>.pickle` (memoize_fmi.c:355-358). -/
def finalPicklePath (subdirPath hashKey : String) : String :=
  subdirPath ++ "/" ++ hashKey ++ ".pickle"

/-- Filesystem trace of `on_disk_cache_PUT` (memoize_fmi.c:340-379). -/
def on_disk_cache_PUT_ops (rootDirExists subdirExists : Bool)
    (subdirPath hashKey : String) : List FsOp :=
  (if rootDirExists then [] else [FsOp.mkdirOp "incpy-cache"]) ++
  (if subdirExists then [] else [FsOp.mkdirOp subdirPath]) ++
  [FsOp.openForWrite (finalPicklePath subdirPath hashKey),
   FsOp.pickleDump (finalPicklePath subdirPath hashKey)]

/-- Modelled from the spec for refutation: the spec's sentence says the
entry file is produced by writing to a temporary file and then renaming
it into its final place, i.e. the trace renames something onto the final
path and never opens the final path for writing directly. -/
def putWritesViaTempThenRename (ops : List FsOp) (finalPath : String) : Bool :=
  (ops.any fun op =>
    match op with
    | .renameFile _ dst => dst == finalPath
    | _ => false) &&
  !(ops.any fun op =>
    match op with
    | .openForWrite p => p == finalPath
    | _ => false)

/-! ## The memo-table lookup of `pg_enter_frame` (memoize.c:1717-1959)

The loop walks the candidate list for the argument hash.  Per candidate:
a broken code dependency, unless `trust_prev_memoized_results` is set,
clears the whole namespace and aborts the lookup; a global-value
mismatch skips the candidate (`continue`); a broken file mtime deletes
this one entry from the list, rewrites (or deletes) the key's file, and
aborts the loop; otherwise the candidate is the hit. -/

inductive LoopRes where
  | hit (e : CacheEntry)
  | clearNamespace
  | deleteEntry (remaining : List CacheEntry)
  | exhausted
deriving DecidableEq, Repr

def lookupLoop (st : VerifyState) (trust : Bool) :
    List CacheEntry → LoopRes
  | [] => .exhausted
  | e :: rest =>
    if !are_code_dependencies_satisfied st.registry e.codeDependencies
        && !trust then
      .clearNamespace
    else if !checkEntryGlobals st e then
      match lookupLoop st trust rest with
      | .deleteEntry rem => .deleteEntry (e :: rem)
      | r => r
    else if !checkEntryFiles st e then
      .deleteEntry rest
    else
      .hit e

inductive LookupOutcome where
  | hit (e : CacheEntry)
  | namespaceCleared
  | miss
deriving DecidableEq, Repr

/-- The lookup portion of `pg_enter_frame` (memoize.c:1717-1959),
including the empty-cache fast path, the candidate loop, and the
resulting update of the on-disk namespace. -/
def pg_lookup (st : VerifyState) (trust : Bool) (fmi : FuncMemoInfo)
    (hashKey : String) : LookupOutcome × FuncMemoInfo :=
  match on_disk_cache_GET fmi hashKey with
  | none => (.miss, fmi)
  | some entries =>
    match lookupLoop st trust entries with
    | .hit e => (.hit e, fmi)
    | .clearNamespace => (.namespaceCleared, clear_cache_and_mark_pure st.registry fmi)
    | .deleteEntry rem =>
      if rem.isEmpty then (.miss, on_disk_cache_DEL_model fmi hashKey)
      else (.miss, on_disk_cache_PUT_model fmi hashKey rem)
    | .exhausted => (.miss, fmi)

/-- Whether `pg_enter_frame` proceeds past its impure / likely-nothing
guard into the memo-table lookup (memoize.c:1654-1658): always when the
`incpy.memoize` force-memoization annotation is set, otherwise only for
records neither impure nor marked likely-nothing-to-memoize. -/
def enter_frame_attempts_lookup (forceMemoization isImpure
    likelyNothing : Bool) : Bool :=
  forceMemoization || (!isImpure && !likelyNothing)

/-! ## The call-exit store decision of `pg_exit_frame`
(memoize.c:2174-2572)

`ExitState` collects every input that decides whether the invocation's
result is stored: the exception/ignore/untracked early exits, the
force-memoization annotation, the runtime against the
`memoize_time_limit_ms` threshold, the impurity flag, the adaptive
likely-nothing flag, the three file sets deciding self-containedness,
the externally-aliased-return and pickling checks, whether the final
`on_disk_cache_PUT` dump succeeded, and the measured store time. -/

structure ExitState where
  retvalPresent : Bool
  pgIgnore : Bool
  hasFmi : Bool
  forceMemoization : Bool
  runtimeMs : Int
  memoizeTimeLimitMs : Int
  isImpure : Bool
  likelyNothingToMemoize : Bool
  filesWritten : List String
  filesOpenedW : List String
  filesClosed : List String
  retvalExternallyAliasedMutable : Bool
  retvalNeverPickle : Bool
  argsAllHaveComparison : Bool
  argsPicklable : Bool
  putSucceeds : Bool
  memoizeTimeMs : Int
deriving DecidableEq, Repr

/-- Fake file names such as `<fdopen>` are skipped by the
self-containedness check (memoize.c:2257-2263). -/
def isFakeFilename (s : String) : Bool :=
  s.toList.head? == some '<' && s.toList.getLast? == some '>'

/-- The non-self-contained-write test (memoize.c:2251-2275): some real
written file is missing from the opened-in-pure-write-mode set or from
the closed set. -/
def hasNonSelfContainedWrite (written openedW closed : List String) : Bool :=
  written.any fun fn =>
    !isFakeFilename fn && !(openedW.contains fn && closed.contains fn)

inductive ExitOutcome where
  | noStore
  | storeFailed
  | storedRetained
  | storedThenDeletedUneconomical
deriving DecidableEq, Repr

/-- Shallow embedding of the store decision of `pg_exit_frame`
(memoize.c:2174-2572).  `noStore`: one of the guards discarded the
result before any write.  `storeFailed`: the `cPickle.dump` inside
`on_disk_cache_PUT` failed.  `storedThenDeletedUneconomical`: the entry
was written, then `memoize_time_ms > runtime_ms` triggered
`on_disk_cache_DEL` plus the DO_NOT_MEMOIZE log line
(memoize.c:2515-2526).  `storedRetained`: the entry was written and
kept. -/
def pg_exit_frame_outcome (s : ExitState) : ExitOutcome :=
  if s.retvalPresent = false then .noStore
  else if s.pgIgnore = true then .noStore
  else if s.hasFmi = false then .noStore
  else if s.forceMemoization = false ∧
          (s.runtimeMs ≤ s.memoizeTimeLimitMs ∨ s.isImpure = true ∨
           s.likelyNothingToMemoize = true ∨
           hasNonSelfContainedWrite s.filesWritten s.filesOpenedW
             s.filesClosed = true ∨
           s.retvalExternallyAliasedMutable = true) then .noStore
  else if s.retvalNeverPickle = true then .noStore
  else if s.argsAllHaveComparison = false then .noStore
  else if s.argsPicklable = false then .noStore
  else if s.putSucceeds = false then .storeFailed
  else if s.runtimeMs < s.memoizeTimeMs then .storedThenDeletedUneconomical
  else .storedRetained

/-- Whether `pg_exit_frame` wrote a cache entry for this invocation
(possibly deleting it again right away). -/
def exitWritesCacheEntry (s : ExitState) : Bool :=
  match pg_exit_frame_outcome s with
  | .storedRetained => true
  | .storedThenDeletedUneconomical => true
  | _ => false

/-! ## Concrete instances used by witnesses and counterexamples -/

/-- A tracked, not-yet-impure frame started at clock 5. -/
def frameT : Frame :=
  { hasFmi := true, isImpure := false, impureReason := none,
    startFuncCallTime := 5, filesOpenedW := [], filesWritten := [],
    filesRead := [] }

/-- An untracked frame (no `func_memo_info`). -/
def frameU : Frame :=
  { hasFmi := false, isImpure := false, impureReason := none,
    startFuncCallTime := 2, filesOpenedW := [], filesWritten := [],
    filesRead := [] }

/-- A tracked frame started at clock 1 (before `mutArgInput`'s recorded
arg-reachable time). -/
def frameOld : Frame :=
  { hasFmi := true, isImpure := false, impureReason := none,
    startFuncCallTime := 1, filesOpenedW := [], filesWritten := [],
    filesRead := [] }

/-- A tracked frame already impure for a recorded reason. -/
def frameImpure : Frame :=
  { hasFmi := true, isImpure := true, impureReason := some "a",
    startFuncCallTime := 4, filesOpenedW := [], filesWritten := [],
    filesRead := [] }

/-- The pure-write mode string "wb". -/
def wbMode : List Char := ['w', 'b']

/-- C10 witness input: a non-NumPy operand pair whose rich comparison
raises. -/
def eqInputErr : EqInput :=
  { richCmpEq := PyResult.err, typename1 := "list", typename2 := "dict",
    allcloseResult := PyResult.err }

/-- C4 witness input: a value argument-reachable since clock 3 about to
be mutated under a stack holding a younger tracked frame, an older
tracked frame, and an untracked frame. -/
def mutArgInput : MutInput :=
  { topIgnored := false, globalContainer := none, argReachableTime := 3,
    stack := [frameT, frameOld, frameU] }

/-- C1 counterexample: the live registry fingerprints `f` as 2... -/
def lookupStateC1 : VerifyState :=
  { registry := [("f", 2)], globals := [], fileMtimes := [] }

/-- ...but the cached entry recorded fingerprint 1 for `f`. -/
def entryC1 : CacheEntry :=
  { codeDependencies := [("f", 1)], globalVarsRead := [], filesRead := [],
    filesWritten := [], retval := 42, runtimeMs := 100 }

def fmiC1 : FuncMemoInfo :=
  { canonicalName := "f", codeDependencies := [("f", 2)], isImpure := false,
    impureStatusMsg := none, likelyNothingToMemoize := false,
    allCodeDepsSAT := false, numFastCallsWithNoMemoizedVals := 0,
    onDiskCacheEmpty := false, cache := [("h", [entryC1])] }

/-- C1 witness inputs: an entry that passes all three checks. -/
def lookupStateC1w : VerifyState :=
  { registry := [("f", 2)], globals := [("x", 4)], fileMtimes := [("d.txt", 7)] }

def entryC1w : CacheEntry :=
  { codeDependencies := [("f", 2)], globalVarsRead := [("x", 4)],
    filesRead := [("d.txt", 7)], filesWritten := [], retval := 42,
    runtimeMs := 100 }

def fmiC1w : FuncMemoInfo :=
  { canonicalName := "f", codeDependencies := [("f", 2)], isImpure := false,
    impureStatusMsg := none, likelyNothingToMemoize := false,
    allCodeDepsSAT := false, numFastCallsWithNoMemoizedVals := 0,
    onDiskCacheEmpty := false, cache := [("h", [entryC1w])] }

/-- C2 counterexample: current value of global `x` is 1... -/
def lookupStateC2 : VerifyState :=
  { registry := [("g", 5)], globals := [("x", 1)], fileMtimes := [] }

/-- ...but the cached entry recorded value 2 for `x` (code deps fine). -/
def entryC2 : CacheEntry :=
  { codeDependencies := [("g", 5)], globalVarsRead := [("x", 2)],
    filesRead := [], filesWritten := [], retval := 7, runtimeMs := 10 }

def fmiC2 : FuncMemoInfo :=
  { canonicalName := "g", codeDependencies := [("g", 5)], isImpure := false,
    impureStatusMsg := none, likelyNothingToMemoize := false,
    allCodeDepsSAT := false, numFastCallsWithNoMemoizedVals := 0,
    onDiskCacheEmpty := false, cache := [("h", [entryC2])] }

/-- C2 witness inputs: an entry broken only in its file-read mtime. -/
def lookupStateC2f : VerifyState :=
  { registry := [("g", 5)], globals := [("x", 2)], fileMtimes := [] }

def entryC2f : CacheEntry :=
  { codeDependencies := [("g", 5)], globalVarsRead := [("x", 2)],
    filesRead := [("data.txt", 3)], filesWritten := [], retval := 7,
    runtimeMs := 10 }

def fmiC2f : FuncMemoInfo :=
  { canonicalName := "g", codeDependencies := [("g", 5)], isImpure := false,
    impureStatusMsg := none, likelyNothingToMemoize := false,
    allCodeDepsSAT := false, numFastCallsWithNoMemoizedVals := 0,
    onDiskCacheEmpty := false, cache := [("h", [entryC2f]), ("h2", [entryC2])] }

/-- C2 witness inputs: an entry with a broken code dependency. -/
def entryC2c : CacheEntry :=
  { codeDependencies := [("g", 4)], globalVarsRead := [], filesRead := [],
    filesWritten := [], retval := 7, runtimeMs := 10 }

def fmiC2c : FuncMemoInfo :=
  { canonicalName := "g", codeDependencies := [("g", 5)], isImpure := false,
    impureStatusMsg := none, likelyNothingToMemoize := false,
    allCodeDepsSAT := false, numFastCallsWithNoMemoizedVals := 0,
    onDiskCacheEmpty := false, cache := [("h", [entryC2c]), ("h2", [entryC2])] }

/-- C5 counterexample: an exit state of an invocation that is impure but
whose callable carries the `incpy.memoize` force-memoization
annotation; everything else allows the store and the pickle dump
succeeds quickly. -/
def exitForcedImpure : ExitState :=
  { retvalPresent := true, pgIgnore := false, hasFmi := true,
    forceMemoization := true, runtimeMs := 10, memoizeTimeLimitMs := 1000,
    isImpure := true, likelyNothingToMemoize := false, filesWritten := [],
    filesOpenedW := [], filesClosed := [],
    retvalExternallyAliasedMutable := false, retvalNeverPickle := false,
    argsAllHaveComparison := true, argsPicklable := true,
    putSucceeds := true, memoizeTimeMs := 1 }

/-- C5 witness: the same invocation without the annotation. -/
def exitPlainImpure : ExitState :=
  { exitForcedImpure with forceMemoization := false }

/-- C7 witness: a stored entry whose pickling took 50 ms against a 20 ms
runtime. -/
def exitUneconomical : ExitState :=
  { retvalPresent := true, pgIgnore := false, hasFmi := true,
    forceMemoization := false, runtimeMs := 20, memoizeTimeLimitMs := 5,
    isImpure := false, likelyNothingToMemoize := false, filesWritten := [],
    filesOpenedW := [], filesClosed := [],
    retvalExternallyAliasedMutable := false, retvalNeverPickle := false,
    argsAllHaveComparison := true, argsPicklable := true,
    putSucceeds := true, memoizeTimeMs := 50 }

def fmiC7 : FuncMemoInfo :=
  { canonicalName := "f", codeDependencies := [("f", 2)], isImpure := false,
    impureStatusMsg := none, likelyNothingToMemoize := false,
    allCodeDepsSAT := false, numFastCallsWithNoMemoizedVals := 0,
    onDiskCacheEmpty := false, cache := [] }

/-- C8 state: tracking enabled, one tracked frame, the value about to be
mutated is argument-reachable since clock 1. -/
def trackStateOn : TrackState :=
  { pgActivated := true,
    mutInput := { topIgnored := false, globalContainer := none,
                  argReachableTime := 1, stack := [frameT] } }

/-- C8 witness: tracking already disabled. -/
def trackStateOff : TrackState :=
  { pgActivated := false,
    mutInput := { topIgnored := false, globalContainer := none,
                  argReachableTime := 1, stack := [frameT] } }

/-- C9 witness inputs. -/
def registryC9 : List (String × Nat) := [("f", 3)]

def fmiC9 : FuncMemoInfo :=
  { canonicalName := "f", codeDependencies := [("f", 3), ("callee", 8)],
    isImpure := false, impureStatusMsg := none,
    likelyNothingToMemoize := false, allCodeDepsSAT := false,
    numFastCallsWithNoMemoizedVals := 0, onDiskCacheEmpty := true,
    cache := [] }

/-! ## Helper lemmas -/

theorem assocLookup_filter_ne {α : Type} (p : String × α → Bool) :
    ∀ (m : List (String × α)) (k : String),
      (∀ v, p (k, v) = true) →
      assocLookup (m.filter p) k = assocLookup m k := by
  intro m
  induction m with
  | nil => intro k _; rfl
  | cons hd tl ih =>
    intro k hk
    by_cases hkey : hd.1 == k
    · have hEq : hd.1 = k := by simpa using hkey
      have hph : p hd = true := by
        have h2 := hk hd.2
        rw [← hEq] at h2
        exact h2
      simp [List.filter, hph, assocLookup, hkey, ih k hk]
    · by_cases hp : p hd = true
      · simp [List.filter, hp, assocLookup, hkey, ih k hk]
      · have hp2 : p hd = false := by simpa using hp
        simp [List.filter, hp2, assocLookup, hkey, ih k hk]

theorem assocLookup_remove_self {α : Type} (m : List (String × α)) (k : String) :
    assocLookup (assocRemove m k) k = none := by
  induction m with
  | nil => rfl
  | cons hd tl ih =>
    by_cases hkey : hd.1 == k
    · simp [assocRemove, List.filter, hkey] at ih ⊢
      simpa [assocRemove] using ih
    · have hkey2 : (hd.1 == k) = false := by simpa using hkey
      simp [assocRemove, List.filter, hkey2, assocLookup] at ih ⊢
      simpa [assocRemove, hkey2] using ih

theorem assocLookup_append {α : Type} (m1 m2 : List (String × α)) (k : String) :
    assocLookup (m1 ++ m2) k =
      (match assocLookup m1 k with
       | some v => some v
       | none => assocLookup m2 k) := by
  induction m1 with
  | nil => simp [assocLookup]
  | cons hd tl ih =>
    by_cases hkey : hd.1 == k
    · simp [assocLookup, hkey]
    · have hkey2 : (hd.1 == k) = false := by simpa using hkey
      simp [assocLookup, hkey2, ih]

theorem assocLookup_update_self {α : Type} (m : List (String × α)) (k : String) (v : α) :
    assocLookup (assocUpdate m k v) k = some v := by
  unfold assocUpdate
  rw [assocLookup_append, assocLookup_remove_self]
  simp [assocLookup]

theorem assocLookup_remove_ne {α : Type} (m : List (String × α)) (k k' : String)
    (h : k' ≠ k) :
    assocLookup (assocRemove m k) k' = assocLookup m k' := by
  unfold assocRemove
  apply assocLookup_filter_ne
  intro v
  simp
  exact h

theorem assocLookup_update_ne {α : Type} (m : List (String × α)) (k k' : String) (v : α)
    (h : k' ≠ k) :
    assocLookup (assocUpdate m k v) k' = assocLookup m k' := by
  unfold assocUpdate
  rw [assocLookup_append, assocLookup_remove_ne m k k' h]
  cases hm : assocLookup m k' with
  | some w => simp
  | none =>
    simp [assocLookup]
    intro hk
    exact h hk.symm

/-- Helper: `List.map` commutes with positional access. -/
theorem listGetQuestionMap {α β : Type} (f : α → β) :
    ∀ (l : List α) (n : Nat), (l.map f).get? n = (l.get? n).map f := by
  intro l
  induction l with
  | nil => intro n; cases n <;> rfl
  | cons hd tl ih => intro n; cases n with
    | zero => rfl
    | succ m => simp only [List.map, List.get?]; exact ih m

theorem mark_impure_isImpure (why : String) (f : Frame) :
    (mark_impure why f).isImpure = (f.isImpure || f.hasFmi) := by
  cases hf : f.hasFmi <;> cases hi : f.isImpure <;>
    simp [mark_impure, hf, hi]

theorem mark_impure_of_impure (why : String) (f : Frame) (h : f.isImpure = true) :
    mark_impure why f = f := by
  cases hf : f.hasFmi <;> simp [mark_impure, hf, h]

theorem mark_impure_no_fmi (why : String) (f : Frame) (h : f.hasFmi = false) :
    mark_impure why f = f := by
  simp [mark_impure, h]

theorem mark_impure_idem (why1 why2 : String) (f : Frame) :
    mark_impure why2 (mark_impure why1 f) = mark_impure why1 f := by
  cases hf : f.hasFmi <;> cases hi : f.isImpure <;>
    simp [mark_impure, hf, hi]

theorem parseFileMode_no_mixed (mode : List Char) :
    ∀ (pw : Bool),
      hasChar mode 'r' = false → hasChar mode '+' = false →
      hasChar mode 'a' = false →
      mode.foldl fileModeStep (pw, false) = ((pw || hasChar mode 'w'), false) := by
  induction mode with
  | nil => intro pw _ _ _; simp [hasChar]
  | cons c rest ih =>
    intro pw hr hp ha
    have hcr : (c == 'r') = false := by
      cases h : (c == 'r') with
      | true => rw [hasChar, h] at hr; simp at hr
      | false => rfl
    have hcp : (c == '+') = false := by
      cases h : (c == '+') with
      | true => rw [hasChar, h] at hp; simp at hp
      | false => rfl
    have hca : (c == 'a') = false := by
      cases h : (c == 'a') with
      | true => rw [hasChar, h] at ha; simp at ha
      | false => rfl
    have hr2 : hasChar rest 'r' = false := by
      rw [hasChar, hcr] at hr; simpa using hr
    have hp2 : hasChar rest '+' = false := by
      rw [hasChar, hcp] at hp; simpa using hp
    have ha2 : hasChar rest 'a' = false := by
      rw [hasChar, hca] at ha; simpa using ha
    cases hcw : (c == 'w') with
    | true =>
      have : List.foldl fileModeStep (pw, false) (c :: rest)
          = List.foldl fileModeStep (true, false) rest := by
        simp [List.foldl, fileModeStep, hcw]
      rw [this, ih true hr2 hp2 ha2]
      simp [hasChar, hcw]
    | false =>
      have : List.foldl fileModeStep (pw, false) (c :: rest)
          = List.foldl fileModeStep (pw, false) rest := by
        simp [List.foldl, fileModeStep, hcw, hcr, hcp, hca]
      rw [this, ih pw hr2 hp2 ha2]
      simp [hasChar, hcw]

theorem parseFileMode_mixed_sticky (mode : List Char) :
    ∀ (acc : Bool × Bool), acc.2 = true →
      (mode.foldl fileModeStep acc).2 = true := by
  induction mode with
  | nil => intro acc h; simpa using h
  | cons c rest ih =>
    intro acc h
    apply ih
    unfold fileModeStep
    by_cases h1 : (c == 'w') = true
    · simp [h1, h]
    · simp at h1
      by_cases h2 : (c == 'r') = true
      · simp [h1, h2, h]
      · simp at h2
        by_cases h3 : (c == '+') = true
        · simp [h1, h2, h3]
        · simp at h3
          by_cases h4 : (c == 'a') = true
          · simp [h1, h2, h3, h4]
          · simp at h4
            simp [h1, h2, h3, h4, h]

theorem parseFileMode_snd_any (mode : List Char) :
    ∀ (pw : Bool), (hasChar mode 'a' || hasChar mode '+') = true →
      (mode.foldl fileModeStep (pw, false)).2 = true := by
  induction mode with
  | nil => intro pw h; simp [hasChar] at h
  | cons c rest ih =>
    intro pw h
    have step : List.foldl fileModeStep (pw, false) (c :: rest)
        = List.foldl fileModeStep (fileModeStep (pw, false) c) rest := rfl
    rw [step]
    by_cases hca : (c == 'a') = true
    · have hc : c = 'a' := by simpa using hca
      subst hc
      apply parseFileMode_mixed_sticky
      cases pw <;> rfl
    · by_cases hcp : (c == '+') = true
      · have hc : c = '+' := by simpa using hcp
        subst hc
        apply parseFileMode_mixed_sticky
        cases pw <;> rfl
      · have hrest : (hasChar rest 'a' || hasChar rest '+') = true := by
          rw [hasChar, hasChar] at h
          simp at hca hcp
          simpa [hca, hcp] using h
        cases hacc : fileModeStep (pw, false) c with
        | mk a b =>
          cases b with
          | true =>
            apply parseFileMode_mixed_sticky
            rfl
          | false => exact ih a hrest

theorem parseFileMode_mixed_of_aplus (mode : List Char)
    (h : (hasChar mode 'a' || hasChar mode '+') = true) :
    (parseFileMode mode).2 = true :=
  parseFileMode_snd_any mode false h

theorem parseFileMode_of_pureWriteMode (mode : List Char)
    (h : pureWriteMode mode = true) :
    parseFileMode mode = (true, false) := by
  unfold pureWriteMode at h
  simp only [Bool.and_eq_true, Bool.not_eq_true'] at h
  obtain ⟨⟨⟨hw, hr⟩, hp⟩, ha⟩ := h
  unfold parseFileMode
  rw [parseFileMode_no_mixed mode false hr hp ha]
  simp [hw]

/-- The lookup loop only declares a hit on a candidate that passed the
global-value and file-mtime checks, and — whenever the trust override is
off — the code-dependency check as well. -/
theorem lookupLoop_hit_passed_checks (st : VerifyState) (trust : Bool) :
    ∀ (entries : List CacheEntry) (e : CacheEntry),
      lookupLoop st trust entries = LoopRes.hit e →
      checkEntryGlobals st e = true ∧ checkEntryFiles st e = true ∧
      (trust = false →
        are_code_dependencies_satisfied st.registry e.codeDependencies = true) := by
  intro entries
  induction entries with
  | nil => intro e h; simp [lookupLoop] at h
  | cons hd tl ih =>
    intro e h
    unfold lookupLoop at h
    by_cases hcode :
        (!are_code_dependencies_satisfied st.registry hd.codeDependencies
          && !trust) = true
    · rw [if_pos hcode] at h
      cases h
    · rw [if_neg hcode] at h
      by_cases hglob : checkEntryGlobals st hd = false
      · simp only [hglob, Bool.not_false, if_pos] at h
        cases hloop : lookupLoop st trust tl with
        | hit e2 =>
          rw [hloop] at h
          simp at h
          subst h
          exact ih e2 hloop
        | clearNamespace => rw [hloop] at h; cases h
        | deleteEntry rem => rw [hloop] at h; cases h
        | exhausted => rw [hloop] at h; cases h
      · have hglob2 : checkEntryGlobals st hd = true := by
          cases hval : checkEntryGlobals st hd with
          | true => rfl
          | false => exact absurd hval hglob
        rw [hglob2] at h
        simp only [Bool.not_true, Bool.false_eq_true, if_false] at h
        by_cases hfiles : checkEntryFiles st hd = false
        · rw [hfiles] at h
          simp only [Bool.not_false, if_true] at h
          cases h
        · have hfiles2 : checkEntryFiles st hd = true := by
            cases hval : checkEntryFiles st hd with
            | true => rfl
            | false => exact absurd hval hfiles
          rw [hfiles2] at h
          simp only [Bool.not_true, Bool.false_eq_true, if_false] at h
          cases h
          refine ⟨hglob2, hfiles2, ?_⟩
          intro htrust
          subst htrust
          simp only [Bool.not_false, Bool.and_true, Bool.not_eq_true',
            Bool.not_eq_false] at hcode
          exact hcode

/-! ## Claim theorems -/

/-- Claim C10 (confirmed): for every pair of values whose Python
equality evaluation raises an error, `obj_equals` clears the error
rather than propagating it, and returns 0 (unequal) — except that NumPy
array/matrix/MaskedArray operands are re-compared via `numpy.allclose`
(whose verdict is returned), and a failure of `allclose` itself also
yields 0 with the error cleared.  The returned 0 can only make the
dependency-verification comparison report a mismatch, i.e. a cache
miss. -/
theorem obj_equals_error_contract (inp : EqInput)
    (h : inp.richCmpEq = PyResult.err) :
    (obj_equals inp).errorPending = false ∧
    ((isNumpyTypename inp.typename1 || isNumpyTypename inp.typename2) = false →
      (obj_equals inp).result = false) ∧
    ((isNumpyTypename inp.typename1 || isNumpyTypename inp.typename2) = true →
      ∀ b, inp.allcloseResult = PyResult.ok b → (obj_equals inp).result = b) ∧
    (inp.allcloseResult = PyResult.err → (obj_equals inp).result = false) := by
  cases hn : (isNumpyTypename inp.typename1 || isNumpyTypename inp.typename2) with
  | false =>
    refine ⟨?_, ?_, ?_, ?_⟩
    · simp [obj_equals, h, hn]
    · intro _; simp [obj_equals, h, hn]
    · intro hcon; simp at hcon
    · intro _; simp [obj_equals, h, hn]
  | true =>
    refine ⟨?_, ?_, ?_, ?_⟩
    · cases ha : inp.allcloseResult <;> simp [obj_equals, h, hn, ha]
    · intro hcon; simp at hcon
    · intro _ b hb; simp [obj_equals, h, hn, hb]
    · intro ha; simp [obj_equals, h, hn, ha]

theorem obj_equals_error_contract_witness :
    (obj_equals eqInputErr).errorPending = false ∧
    ((isNumpyTypename eqInputErr.typename1 ||
      isNumpyTypename eqInputErr.typename2) = false →
      (obj_equals eqInputErr).result = false) ∧
    ((isNumpyTypename eqInputErr.typename1 ||
      isNumpyTypename eqInputErr.typename2) = true →
      ∀ b, eqInputErr.allcloseResult = PyResult.ok b →
        (obj_equals eqInputErr).result = b) ∧
    (eqInputErr.allcloseResult = PyResult.err →
      (obj_equals eqInputErr).result = false) :=
  obj_equals_error_contract eqInputErr rfl

/-- Claim C9 (confirmed): a `FuncMemoInfo`'s code-dependency map holds
an entry under the record's own canonical name after
`NEW_func_memo_info` creates it, after `clear_cache_and_mark_pure`
rebuilds it (given the asserted registry lookup succeeds), and after
`deserialize_func_memo_info` reloads a record that was serialized while
satisfying the invariant. -/
theorem self_code_dependency_invariant (registry : List (String × Nat))
    (name : String) (fp : Nat) (fmi : FuncMemoInfo)
    (hclear : (assocLookup registry fmi.canonicalName).isSome = true)
    (hself : hasSelfCodeDependency fmi = true) :
    hasSelfCodeDependency (NEW_func_memo_info registry name fp).1 = true ∧
    hasSelfCodeDependency (clear_cache_and_mark_pure registry fmi) = true ∧
    hasSelfCodeDependency
      (deserialize_func_memo_info registry
        (serialize_func_memo_info_dependencies fmi)
        fmi.canonicalName fp).1 = true := by
  refine ⟨?_, ?_, ?_⟩
  · cases hl : assocLookup registry name with
    | some dep => simp [NEW_func_memo_info, hl, hasSelfCodeDependency, assocLookup]
    | none => simp [NEW_func_memo_info, hl, hasSelfCodeDependency, assocLookup]
  · cases hl : assocLookup registry fmi.canonicalName with
    | some dep =>
      simp [clear_cache_and_mark_pure, hl, hasSelfCodeDependency, assocLookup]
    | none =>
      rw [hl] at hclear
      cases hclear
  · cases hl : assocLookup registry fmi.canonicalName with
    | some dep =>
      simp only [deserialize_func_memo_info,
        serialize_func_memo_info_dependencies, NEW_func_memo_info, hl,
        hasSelfCodeDependency] at hself ⊢
      exact hself
    | none =>
      simp only [deserialize_func_memo_info,
        serialize_func_memo_info_dependencies, NEW_func_memo_info, hl,
        hasSelfCodeDependency] at hself ⊢
      exact hself

theorem self_code_dependency_invariant_witness :
    hasSelfCodeDependency (NEW_func_memo_info registryC9 "f" 9).1 = true ∧
    hasSelfCodeDependency (clear_cache_and_mark_pure registryC9 fmiC9) = true ∧
    hasSelfCodeDependency
      (deserialize_func_memo_info registryC9
        (serialize_func_memo_info_dependencies fmiC9)
        fmiC9.canonicalName 9).1 = true :=
  self_code_dependency_invariant registryC9 "f" 9 fmiC9 (by decide) (by decide)

/-- Claim C3 counterexample: the filesystem trace of
`on_disk_cache_PUT` (with both parent directories already existing, for
the cache sub-directory of callable `f` under key `k`) opens the final
pickle path directly for writing; the write-to-temp-then-rename pattern
the claim describes is absent. -/
theorem on_disk_cache_PUT_no_temp_rename :
    putWritesViaTempThenRename
      (on_disk_cache_PUT_ops true true "incpy-cache/abc.cache" "k")
      (finalPicklePath "incpy-cache/abc.cache" "k") = false ∧
    FsOp.openForWrite (finalPicklePath "incpy-cache/abc.cache" "k") ∈
      on_disk_cache_PUT_ops true true "incpy-cache/abc.cache" "k" := by
  refine ⟨by decide, ?_⟩
  simp [on_disk_cache_PUT_ops]

/-- Claim C3 (amended): for every store of a cache-entry list, the put
operation writes the serialized entry file by opening its final path
directly and dumping into it; it performs no rename at all (so the
write-to-temp-then-atomically-rename protection the spec describes is
not present, and a reader may observe a partially written entry file). -/
theorem on_disk_cache_PUT_writes_final_directly
    (rootDirExists subdirExists : Bool) (subdirPath hashKey : String) :
    FsOp.openForWrite (finalPicklePath subdirPath hashKey) ∈
      on_disk_cache_PUT_ops rootDirExists subdirExists subdirPath hashKey ∧
    FsOp.pickleDump (finalPicklePath subdirPath hashKey) ∈
      on_disk_cache_PUT_ops rootDirExists subdirExists subdirPath hashKey ∧
    ∀ src dst, FsOp.renameFile src dst ∉
      on_disk_cache_PUT_ops rootDirExists subdirExists subdirPath hashKey := by
  refine ⟨?_, ?_, ?_⟩
  · cases rootDirExists <;> cases subdirExists <;>
      simp [on_disk_cache_PUT_ops]
  · cases rootDirExists <;> cases subdirExists <;>
      simp [on_disk_cache_PUT_ops]
  · intro src dst
    cases rootDirExists <;> cases subdirExists <;>
      simp [on_disk_cache_PUT_ops]

theorem on_disk_cache_PUT_writes_final_directly_witness :
    FsOp.openForWrite (finalPicklePath "incpy-cache/abc.cache" "k") ∈
      on_disk_cache_PUT_ops false false "incpy-cache/abc.cache" "k" ∧
    FsOp.pickleDump (finalPicklePath "incpy-cache/abc.cache" "k") ∈
      on_disk_cache_PUT_ops false false "incpy-cache/abc.cache" "k" ∧
    ∀ src dst, FsOp.renameFile src dst ∉
      on_disk_cache_PUT_ops false false "incpy-cache/abc.cache" "k" :=
  on_disk_cache_PUT_writes_final_directly false false "incpy-cache/abc.cache" "k"

/-- Claim C1 counterexample: with the `trust_prev_memoized_results`
override active, the lookup returns `entryC1` as a hit although its
recorded code fingerprint for `f` (1) differs from the current registry
fingerprint (2) — so, as stated without the trust exception, the claim
fails. -/
theorem pg_lookup_trust_returns_stale_hit :
    pg_lookup lookupStateC1 true fmiC1 "h" = (LookupOutcome.hit entryC1, fmiC1) ∧
    are_code_dependencies_satisfied lookupStateC1.registry
      entryC1.codeDependencies = false := by
  refine ⟨by decide, by decide⟩

/-- Claim C1 (amended): whenever the memo-table lookup of
`pg_enter_frame` returns a hit, that candidate passed the
global-variable-value check and the file-modification-time check, and —
whenever the trust-previous-results override is inactive — the
code-dependency check as well; with the override active a candidate
failing only the code-dependency check may still be returned.  Hence,
with the override off, every candidate whose recorded fingerprints,
global values or file mtimes differ from the current state is never
returned as a hit. -/
theorem pg_lookup_hit_passed_checks (st : VerifyState) (trust : Bool)
    (fmi : FuncMemoInfo) (hashKey : String) (e : CacheEntry)
    (fmi2 : FuncMemoInfo)
    (h : pg_lookup st trust fmi hashKey = (LookupOutcome.hit e, fmi2)) :
    checkEntryGlobals st e = true ∧ checkEntryFiles st e = true ∧
    (trust = false →
      are_code_dependencies_satisfied st.registry e.codeDependencies = true) := by
  unfold pg_lookup at h
  split at h
  · simp [Prod.ext_iff] at h
  · rename_i entries hget
    split at h
    · rename_i e2 hloop
      simp only [Prod.ext_iff] at h
      obtain ⟨he, hf⟩ := h
      simp only [LookupOutcome.hit.injEq] at he
      subst he
      exact lookupLoop_hit_passed_checks st trust entries e2 hloop
    · simp [Prod.ext_iff] at h
    · split at h <;> simp [Prod.ext_iff] at h
    · simp [Prod.ext_iff] at h

theorem pg_lookup_hit_passed_checks_witness :
    checkEntryGlobals lookupStateC1w entryC1w = true ∧
    checkEntryFiles lookupStateC1w entryC1w = true ∧
    (false = false →
      are_code_dependencies_satisfied lookupStateC1w.registry
        entryC1w.codeDependencies = true) :=
  pg_lookup_hit_passed_checks lookupStateC1w false fmiC1w "h" entryC1w
    fmiC1w (by decide)

/-- Claim C2 counterexample: `entryC2` fails only the global-value check
(recorded x = 2, current x = 1); the lookup merely skips it — the
returned namespace state is unchanged and the entry is still on disk
under its argument hash — so the claim's assertion that a global-value
failure is deleted (lazily evicted) fails. -/
theorem lookup_global_mismatch_not_deleted :
    pg_lookup lookupStateC2 false fmiC2 "h" = (LookupOutcome.miss, fmiC2) ∧
    checkEntryGlobals lookupStateC2 entryC2 = false ∧
    checkEntryFiles lookupStateC2 entryC2 = true ∧
    are_code_dependencies_satisfied lookupStateC2.registry
      entryC2.codeDependencies = true ∧
    assocLookup (pg_lookup lookupStateC2 false fmiC2 "h").2.cache "h"
      = some [entryC2] := by
  refine ⟨by decide, by decide, by decide, by decide, by decide⟩

/-- Claim C2 (amended): during lookup, a candidate that fails the
global-value check is skipped (the scan continues and the candidate
survives any single-entry eviction); a candidate that fails the
file-modification-time check is lazily evicted — exactly that entry is
removed from this argument hash's on-disk list, other argument hashes
untouched; a candidate that fails the code-dependency check — unless the
trust-previous-results override is active — invalidates the entire
on-disk namespace: every entry for every argument hash is deleted and
the empty-cache flag is set. -/
theorem lookup_eviction_behaviour (st : VerifyState) (trust : Bool)
    (e : CacheEntry) (rest : List CacheEntry) (fmi : FuncMemoInfo)
    (hashKey : String) :
    ((!are_code_dependencies_satisfied st.registry e.codeDependencies
        && !trust) = false →
      checkEntryGlobals st e = false →
      lookupLoop st trust (e :: rest) =
        (match lookupLoop st trust rest with
         | LoopRes.deleteEntry rem => LoopRes.deleteEntry (e :: rem)
         | r => r)) ∧
    ((!are_code_dependencies_satisfied st.registry e.codeDependencies
        && !trust) = false →
      checkEntryGlobals st e = true →
      checkEntryFiles st e = false →
      lookupLoop st trust (e :: rest) = LoopRes.deleteEntry rest) ∧
    (fmi.onDiskCacheEmpty = false →
      assocLookup fmi.cache hashKey = some (e :: rest) →
      lookupLoop st trust (e :: rest) = LoopRes.deleteEntry rest →
      ((pg_lookup st trust fmi hashKey).2.cache =
        (if rest.isEmpty then assocRemove fmi.cache hashKey
         else assocUpdate fmi.cache hashKey rest) ∧
       ∀ k, k ≠ hashKey →
         assocLookup (pg_lookup st trust fmi hashKey).2.cache k =
           assocLookup fmi.cache k)) ∧
    (are_code_dependencies_satisfied st.registry e.codeDependencies = false →
      trust = false →
      lookupLoop st trust (e :: rest) = LoopRes.clearNamespace) ∧
    (fmi.onDiskCacheEmpty = false →
      assocLookup fmi.cache hashKey = some (e :: rest) →
      lookupLoop st trust (e :: rest) = LoopRes.clearNamespace →
      ((pg_lookup st trust fmi hashKey).1 = LookupOutcome.namespaceCleared ∧
       (pg_lookup st trust fmi hashKey).2.cache = [] ∧
       (pg_lookup st trust fmi hashKey).2.onDiskCacheEmpty = true)) := by
  refine ⟨?_, ?_, ?_, ?_, ?_⟩
  · intro hcode hglob
    have hc2 : ¬((!are_code_dependencies_satisfied st.registry
        e.codeDependencies && !trust) = true) := by
      rw [hcode]
      simp
    have hg : (!checkEntryGlobals st e) = true := by simp [hglob]
    rw [lookupLoop, if_neg hc2, if_pos hg]
  · intro hcode hglob hfiles
    have hc2 : ¬((!are_code_dependencies_satisfied st.registry
        e.codeDependencies && !trust) = true) := by
      rw [hcode]
      simp
    have hg2 : ¬((!checkEntryGlobals st e) = true) := by
      rw [hglob]
      simp
    have hf : (!checkEntryFiles st e) = true := by simp [hfiles]
    rw [lookupLoop, if_neg hc2, if_neg hg2, if_pos hf]
  · intro hempty hcache hloop
    have hget : on_disk_cache_GET fmi hashKey = some (e :: rest) := by
      unfold on_disk_cache_GET
      rw [hempty]
      simpa using hcache
    constructor
    · unfold pg_lookup
      simp only [hget, hloop]
      by_cases hrem : rest.isEmpty = true
      · simp only [if_pos hrem]
        rfl
      · simp only [if_neg hrem]
        rfl
    · intro k hk
      unfold pg_lookup
      simp only [hget, hloop]
      by_cases hrem : rest.isEmpty = true
      · simp only [if_pos hrem]
        exact assocLookup_remove_ne fmi.cache hashKey k hk
      · simp only [if_neg hrem]
        exact assocLookup_update_ne fmi.cache hashKey k rest hk
  · intro hcode htrust
    have hpos : (!are_code_dependencies_satisfied st.registry
        e.codeDependencies && !trust) = true := by
      simp [hcode, htrust]
    rw [lookupLoop, if_pos hpos]
  · intro hempty hcache hloop
    have hget : on_disk_cache_GET fmi hashKey = some (e :: rest) := by
      unfold on_disk_cache_GET
      rw [hempty]
      simpa using hcache
    refine ⟨?_, ?_, ?_⟩ <;>
      · unfold pg_lookup
        simp only [hget, hloop]
        try rfl

theorem lookup_eviction_behaviour_witness :
    lookupLoop lookupStateC2f false [entryC2f] = LoopRes.deleteEntry [] ∧
    (pg_lookup lookupStateC2f false fmiC2f "h").2.cache =
      (if ([] : List CacheEntry).isEmpty
       then assocRemove fmiC2f.cache "h"
       else assocUpdate fmiC2f.cache "h" []) ∧
    assocLookup (pg_lookup lookupStateC2f false fmiC2f "h").2.cache "h2" =
      assocLookup fmiC2f.cache "h2" ∧
    lookupLoop lookupStateC2f false [entryC2c] = LoopRes.clearNamespace ∧
    (pg_lookup lookupStateC2f false fmiC2c "h").2.cache = [] :=
  have hthm := lookup_eviction_behaviour lookupStateC2f false entryC2f
    ([] : List CacheEntry) fmiC2f "h"
  have hthm2 := lookup_eviction_behaviour lookupStateC2f false entryC2c
    ([] : List CacheEntry) fmiC2c "h"
  have hdel : lookupLoop lookupStateC2f false [entryC2f]
      = LoopRes.deleteEntry [] :=
    hthm.2.1 (by decide) (by decide) (by decide)
  have hclear : lookupLoop lookupStateC2f false [entryC2c]
      = LoopRes.clearNamespace :=
    hthm2.2.2.2.1 (by decide) (by decide)
  have hfx := hthm.2.2.1 (by decide) (by decide) hdel
  have hcx := hthm2.2.2.2.2 (by decide) (by decide) hclear
  ⟨hdel, hfx.1, hfx.2 "h2" (by decide), hclear, hcx.2.1⟩

/-- Claim C4 (confirmed): on an about-to-mutate event for value `v`
(with a non-ignored top frame), if `v` carries a global-container tag
whose path is not the "IGNORE" (ignored/library) sentinel, every
tracked invocation on the stack is marked impure; otherwise exactly
those tracked invocations whose `start_func_call_time` is at or after
`v`'s recorded arg-reachable-since clock value are marked — an
invocation that already existed when `v` started existing (its start
time is strictly below the recorded clock, which itself is the start
time of the earliest call that received `v` as an argument, after `v`'s
creation) is left entirely unchanged, i.e. never blamed. -/
theorem mutation_blame_exactness (inp : MutInput) (i : Nat) (f g : Frame)
    (htop : inp.topIgnored = false)
    (hf : inp.stack.get? i = some f)
    (hg : (pg_about_to_MUTATE_event inp).get? i = some g) :
    g.isImpure = (f.isImpure || blamedByMutation inp f) ∧
    (blamedByMutation inp f = false → g = f) := by
  cases hgc : inp.globalContainer with
  | some gc =>
    by_cases hig : (gc.1 == "IGNORE") = true
    · have hev : pg_about_to_MUTATE_event inp = inp.stack := by
        simp [pg_about_to_MUTATE_event, htop, hgc, hig]
      rw [hev, hf] at hg
      have hfg : f = g := Option.some.inj hg
      subst hfg
      have hb : blamedByMutation inp f = false := by
        simp [blamedByMutation, hgc, hig]
      rw [hb]
      exact ⟨by simp, fun _ => rfl⟩
    · have hev : pg_about_to_MUTATE_event inp
          = inp.stack.map (mark_impure "mutate global var") := by
        simp [pg_about_to_MUTATE_event, mark_entire_stack_impure, htop,
          hgc, hig]
      rw [hev, listGetQuestionMap, hf] at hg
      have hfg : mark_impure "mutate global var" f = g := Option.some.inj hg
      subst hfg
      have hb : blamedByMutation inp f = f.hasFmi := by
        simp [blamedByMutation, hgc, hig]
      rw [hb]
      refine ⟨mark_impure_isImpure _ f, ?_⟩
      intro hfm
      exact mark_impure_no_fmi _ f hfm
  | none =>
    by_cases ht : 0 < inp.argReachableTime
    · have hev : pg_about_to_MUTATE_event inp
          = inp.stack.map (fun fr =>
              if fr.hasFmi && decide (inp.argReachableTime ≤ fr.startFuncCallTime)
              then mark_impure "mutates its argument" fr else fr) := by
        simp [pg_about_to_MUTATE_event, htop, hgc, ht]
      rw [hev, listGetQuestionMap, hf] at hg
      have hfg : (if f.hasFmi && decide (inp.argReachableTime ≤ f.startFuncCallTime)
          then mark_impure "mutates its argument" f else f) = g :=
        Option.some.inj hg
      by_cases hcond :
          (f.hasFmi && decide (inp.argReachableTime ≤ f.startFuncCallTime)) = true
      · rw [if_pos hcond] at hfg
        subst hfg
        have hfm : f.hasFmi = true := by
          cases hv : f.hasFmi with
          | true => rfl
          | false => rw [hv] at hcond; simp at hcond
        have hle : decide (inp.argReachableTime ≤ f.startFuncCallTime) = true := by
          cases hv : decide (inp.argReachableTime ≤ f.startFuncCallTime) with
          | true => rfl
          | false => rw [hv] at hcond; simp at hcond
        have hb : blamedByMutation inp f = true := by
          simp [blamedByMutation, hgc, hfm, hle, ht]
        rw [hb]
        refine ⟨?_, ?_⟩
        · simp [mark_impure_isImpure, hfm]
        · intro hcon
          simp at hcon
      · rw [if_neg hcond] at hfg
        subst hfg
        have hb : blamedByMutation inp f = false := by
          unfold blamedByMutation
          rw [hgc]
          cases hfm : f.hasFmi with
          | false => simp
          | true =>
            have hle : decide (inp.argReachableTime ≤ f.startFuncCallTime) = false := by
              cases hv : decide (inp.argReachableTime ≤ f.startFuncCallTime) with
              | false => rfl
              | true => rw [hfm, hv] at hcond; simp at hcond
            simp [hle]
        rw [hb]
        exact ⟨by simp, fun _ => rfl⟩
    · have hev : pg_about_to_MUTATE_event inp = inp.stack := by
        simp [pg_about_to_MUTATE_event, htop, hgc, ht]
      rw [hev, hf] at hg
      have hfg : f = g := Option.some.inj hg
      subst hfg
      have hb : blamedByMutation inp f = false := by
        simp [blamedByMutation, hgc, ht]
      rw [hb]
      exact ⟨by simp, fun _ => rfl⟩

theorem mutation_blame_exactness_witness :
    ((mark_impure "mutates its argument" frameT).isImpure
      = (frameT.isImpure || blamedByMutation mutArgInput frameT) ∧
     (blamedByMutation mutArgInput frameT = false →
       mark_impure "mutates its argument" frameT = frameT)) ∧
    (frameOld.isImpure
      = (frameOld.isImpure || blamedByMutation mutArgInput frameOld) ∧
     (blamedByMutation mutArgInput frameOld = false →
       frameOld = frameOld)) :=
  ⟨mutation_blame_exactness mutArgInput 0 frameT
      (mark_impure "mutates its argument" frameT) rfl (by decide) (by decide),
   mutation_blame_exactness mutArgInput 1 frameOld frameOld rfl (by decide)
      (by decide)⟩

/-- Claim C5 counterexample: for an invocation that is impure at call
exit but whose callable carries the `incpy.memoize` force-memoization
annotation, the impure guard of `pg_exit_frame` (memoize.c:2220-2235)
is bypassed and a cache entry IS written — so the claim's "an
invocation that is impure at call exit is never written to the cache"
fails as stated. -/
theorem forced_exit_caches_impure_invocation :
    exitWritesCacheEntry exitForcedImpure = true ∧
    exitForcedImpure.isImpure = true ∧
    exitForcedImpure.forceMemoization = true := by
  refine ⟨by decide, by decide, by decide⟩

/-- Claim C5 (amended): once an invocation is marked impure the mark is
idempotent — a mark on an impure invocation is a no-op that keeps the
first recorded reason — and, for callables WITHOUT the `incpy.memoize`
force-memoization annotation, an invocation that is impure at call exit
is never written to the cache, and `pg_enter_frame` never even attempts
the memo-table lookup (the only path to `clear_cache_and_mark_pure`,
the single operation that resets the impure flag) while the record is
impure.  With the annotation set, the impure exit check is bypassed (see
the counterexample) and the lookup — hence the flag-resetting clear —
becomes reachable. -/
theorem impurity_monotonic_unless_forced (f : Frame) (why1 why2 : String)
    (s : ExitState) (registry : List (String × Nat)) (fmi : FuncMemoInfo)
    (himp : f.isImpure = true) (hforce : s.forceMemoization = false)
    (himpure : s.isImpure = true) :
    mark_impure why1 f = f ∧
    mark_impure why2 (mark_impure why1 f) = mark_impure why1 f ∧
    exitWritesCacheEntry s = false ∧
    (∀ likely : Bool,
      enter_frame_attempts_lookup false true likely = false) ∧
    (clear_cache_and_mark_pure registry fmi).isImpure = false := by
  refine ⟨mark_impure_of_impure why1 f himp, mark_impure_idem why1 why2 f,
    ?_, ?_, rfl⟩
  · have hout : pg_exit_frame_outcome s = ExitOutcome.noStore := by
      unfold pg_exit_frame_outcome
      by_cases h1 : s.retvalPresent = false
      · rw [if_pos h1]
      · rw [if_neg h1]
        by_cases h2 : s.pgIgnore = true
        · rw [if_pos h2]
        · rw [if_neg h2]
          by_cases h3 : s.hasFmi = false
          · rw [if_pos h3]
          · rw [if_neg h3, if_pos ⟨hforce, Or.inr (Or.inl himpure)⟩]
    unfold exitWritesCacheEntry
    rw [hout]
  · intro likely
    simp [enter_frame_attempts_lookup]

theorem impurity_monotonic_unless_forced_witness :
    mark_impure "b" frameImpure = frameImpure ∧
    mark_impure "c" (mark_impure "b" frameImpure) = mark_impure "b" frameImpure ∧
    exitWritesCacheEntry exitPlainImpure = false ∧
    (∀ likely : Bool,
      enter_frame_attempts_lookup false true likely = false) ∧
    (clear_cache_and_mark_pure registryC9 fmiC9).isImpure = false :=
  impurity_monotonic_unless_forced frameImpure "b" "c" exitPlainImpure
    registryC9 fmiC9 rfl rfl rfl

/-- Claim C6 (confirmed): a file opened in pure-write mode (mode string
containing `w` and none of `r`, `+`, `a`) is recorded in the
files-opened-for-write and files-written sets of every tracked frame on
the stack and no impure flag changes; a mode containing `a` or `+`
immediately marks every tracked invocation on the stack impure. -/
theorem file_open_pure_write_vs_mixed (stack : List Frame) (fname : String)
    (mode : List Char) (i : Nat) (f g : Frame)
    (hf : stack.get? i = some f)
    (hg : (pg_FILE_OPEN_event stack fname mode).get? i = some g) :
    (pureWriteMode mode = true →
      g.isImpure = f.isImpure ∧
      (f.hasFmi = true →
        g.filesOpenedW = setAdd f.filesOpenedW fname ∧
        g.filesWritten = setAdd f.filesWritten fname)) ∧
    ((hasChar mode 'a' || hasChar mode '+') = true →
      g.isImpure = (f.isImpure || f.hasFmi)) := by
  constructor
  · intro hpure
    have hp := parseFileMode_of_pureWriteMode mode hpure
    have hev : pg_FILE_OPEN_event stack fname mode
        = stack.map (pureWriteUpdate fname) := by
      simp [pg_FILE_OPEN_event, hp]
    rw [hev, listGetQuestionMap, hf] at hg
    have hfg : pureWriteUpdate fname f = g := Option.some.inj hg
    subst hfg
    constructor
    · cases hfm : f.hasFmi <;> simp [pureWriteUpdate, hfm]
    · intro hfm
      simp [pureWriteUpdate, hfm]
  · intro hmix
    have hm := parseFileMode_mixed_of_aplus mode hmix
    have hev : pg_FILE_OPEN_event stack fname mode
        = stack.map (mark_impure "opened file in a/+ mode") := by
      simp [pg_FILE_OPEN_event, mark_entire_stack_impure, hm]
    rw [hev, listGetQuestionMap, hf] at hg
    have hfg : mark_impure "opened file in a/+ mode" f = g :=
      Option.some.inj hg
    subst hfg
    exact mark_impure_isImpure _ f

theorem file_open_pure_write_vs_mixed_witness :
    (pureWriteMode wbMode = true →
      (pureWriteUpdate "out.txt" frameT).isImpure = frameT.isImpure ∧
      (frameT.hasFmi = true →
        (pureWriteUpdate "out.txt" frameT).filesOpenedW
          = setAdd frameT.filesOpenedW "out.txt" ∧
        (pureWriteUpdate "out.txt" frameT).filesWritten
          = setAdd frameT.filesWritten "out.txt")) ∧
    ((hasChar wbMode 'a' || hasChar wbMode '+') = true →
      (pureWriteUpdate "out.txt" frameT).isImpure
        = (frameT.isImpure || frameT.hasFmi)) :=
  file_open_pure_write_vs_mixed [frameT] "out.txt" wbMode 0 frameT
    (pureWriteUpdate "out.txt" frameT) rfl (by decide)

/-- Claim C7 (confirmed): on call exit, once the entry has been stored
(no guard discarded the result and the pickle dump of
`on_disk_cache_PUT` succeeded), a measured store cost exceeding the
invocation's own measured runtime makes `pg_exit_frame` take exactly
the branch that calls `on_disk_cache_DEL` on the entry just written and
logs the DO_NOT_MEMOIZE decision (memoize.c:2515-2526); the put
followed by the delete of the same hash key leaves no entry under that
key. -/
theorem uneconomical_store_is_deleted (s : ExitState) (fmi : FuncMemoInfo)
    (hashKey : String) (contents : List CacheEntry)
    (hreach : pg_exit_frame_outcome s ≠ ExitOutcome.noStore)
    (hput : s.putSucceeds = true)
    (hcost : s.runtimeMs < s.memoizeTimeMs) :
    pg_exit_frame_outcome s = ExitOutcome.storedThenDeletedUneconomical ∧
    assocLookup (on_disk_cache_DEL_model
      (on_disk_cache_PUT_model fmi hashKey contents) hashKey).cache
      hashKey = none := by
  constructor
  · unfold pg_exit_frame_outcome at hreach ⊢
    split_ifs at hreach ⊢ with h1 h2 h3 h4 h5 h6 h7 h8
    all_goals first
      | rfl
      | (exact absurd rfl hreach)
      | (simp [hput] at h8)
  · show assocLookup
      (assocRemove (assocUpdate fmi.cache hashKey contents) hashKey)
      hashKey = none
    exact assocLookup_remove_self (assocUpdate fmi.cache hashKey contents)
      hashKey

theorem uneconomical_store_is_deleted_witness :
    pg_exit_frame_outcome exitUneconomical
      = ExitOutcome.storedThenDeletedUneconomical ∧
    assocLookup (on_disk_cache_DEL_model
      (on_disk_cache_PUT_model fmiC7 "h" []) "h").cache "h" = none :=
  uneconomical_store_is_deleted exitUneconomical fmiC7 "h" []
    (by decide) rfl (by decide)

/-- Claim C8 counterexample: `pg_about_to_CALL_C_METHOD_WITH_SELF_event`
is an engine-public `pg_*` handler, yet it never turns the tracking
switch off (memoize.c:2954-2957): invoked with tracking on and the
self-mutating method name "append", the nested
`pg_about_to_MUTATE_event` it synthesizes passes its activation guard —
a nested tracking event IS delivered during the body of a public
operation, and the tracked frame on the stack really becomes impure. -/
theorem c_method_handler_delivers_nested_event :
    trackStateOn.pgActivated = true ∧
    (pg_about_to_CALL_C_METHOD_WITH_SELF_op trackStateOn "append" true).2
      = true ∧
    ((pg_about_to_CALL_C_METHOD_WITH_SELF_op trackStateOn "append"
        true).1.mutInput.stack.map Frame.isImpure) = [true] ∧
    trackStateOn.mutInput.stack.map Frame.isImpure = [false] := by
  refine ⟨rfl, by decide, by decide, by decide⟩

/-- Claim C8 (amended): the macro-wrapped engine-public handlers turn
the process-wide tracking switch off on entry and back on at every exit
path — shown for the wrapped `pg_about_to_MUTATE_event`: entered with
tracking on, its body observes the switch off and the switch is on
again on return; entered with tracking off, the body is skipped and the
state is unchanged.  The exception is
`pg_about_to_CALL_C_METHOD_WITH_SELF_event`, which deliberately leaves
the switch untouched on every path so that its synthesized mutation
event can be delivered. -/
theorem tracking_switch_discipline (stOn stOff : TrackState)
    (hOn : stOn.pgActivated = true) (hOff : stOff.pgActivated = false) :
    (pg_about_to_MUTATE_op stOn).2 = some false ∧
    (pg_about_to_MUTATE_op stOn).1.pgActivated = true ∧
    (pg_about_to_MUTATE_op stOff).2 = none ∧
    (pg_about_to_MUTATE_op stOff).1 = stOff ∧
    (∀ funcName selfPresent,
      (pg_about_to_CALL_C_METHOD_WITH_SELF_op stOn funcName
        selfPresent).1.pgActivated = stOn.pgActivated) ∧
    memoizePublicStart true = some false ∧
    memoizePublicStart false = none ∧
    (∀ b : Bool, memoizePublicEnd b = true) := by
  refine ⟨?_, ?_, ?_, ?_, ?_, rfl, rfl, fun b => rfl⟩
  · simp [pg_about_to_MUTATE_op, memoizePublicStart, hOn]
  · simp [pg_about_to_MUTATE_op, memoizePublicStart, memoizePublicEnd, hOn]
  · simp [pg_about_to_MUTATE_op, memoizePublicStart, hOff]
  · simp [pg_about_to_MUTATE_op, memoizePublicStart, hOff]
  · intro funcName selfPresent
    have hact : ¬(stOn.pgActivated = false) := by
      rw [hOn]
      simp
    unfold pg_about_to_CALL_C_METHOD_WITH_SELF_op
    rw [if_neg hact]
    by_cases d1 : definitelyImpureFuncNames.contains funcName = true
    · rw [if_pos d1]
    · rw [if_neg d1]
      by_cases d2 : selfPresent = false
      · rw [if_pos d2]
      · rw [if_neg d2]
        by_cases d3 : selfMutatorCMethodNames.contains funcName = true
        · rw [if_pos d3]
          simp [pg_about_to_MUTATE_op, memoizePublicStart,
            memoizePublicEnd, hOn]
        · rw [if_neg d3]

theorem tracking_switch_discipline_witness :
    (pg_about_to_MUTATE_op trackStateOn).2 = some false ∧
    (pg_about_to_MUTATE_op trackStateOn).1.pgActivated = true ∧
    (pg_about_to_MUTATE_op trackStateOff).2 = none ∧
    (pg_about_to_MUTATE_op trackStateOff).1 = trackStateOff ∧
    (∀ funcName selfPresent,
      (pg_about_to_CALL_C_METHOD_WITH_SELF_op trackStateOn funcName
        selfPresent).1.pgActivated = trackStateOn.pgActivated) ∧
    memoizePublicStart true = some false ∧
    memoizePublicStart false = none ∧
    (∀ b : Bool, memoizePublicEnd b = true) :=
  tracking_switch_discipline trackStateOn trackStateOff rfl rfl

end IncPy
